import Mathlib

/-!
Shallow embedding of the AIDL compiler front-end
(`aidl.cpp`, `aidl_language.cpp/.h`, `aidl_typenames.cpp`,
`aidl_apicheck.cpp`, `aidl_const_expressions.cpp`).

Each definition mirrors the C++ function it is named after; machine
integers are modelled as `Int`/`Nat`, fallible code as `Option`/`Except`,
and the in-place mutation of method ids as a returned updated list.
-/

namespace Aidl

/-- Model of `AidlTypeSpecifier` (aidl_language.h): the unresolved name as written,
the fully-qualified name (empty string while unresolved), the array flag,
the optional generic type-parameter list (`type_params_` is a nullable
pointer: `IsGeneric()` is "the pointer is non-null"), and the annotation
set of the `AidlAnnotatable` base, modelled as the list of annotation
names. -/
inductive AidlTypeSpecifier where
  | mk (unresolvedName : String) (fullyQualifiedName : String) (isArray : Bool)
      (typeParams : Option (List AidlTypeSpecifier)) (annotations : List String)

def AidlTypeSpecifier.unresolvedName : AidlTypeSpecifier → String
  | .mk u _ _ _ _ => u

def AidlTypeSpecifier.fullyQualifiedName : AidlTypeSpecifier → String
  | .mk _ f _ _ _ => f

def AidlTypeSpecifier.isArray : AidlTypeSpecifier → Bool
  | .mk _ _ a _ _ => a

def AidlTypeSpecifier.typeParams : AidlTypeSpecifier → Option (List AidlTypeSpecifier)
  | .mk _ _ _ p _ => p

def AidlTypeSpecifier.annotations : AidlTypeSpecifier → List String
  | .mk _ _ _ _ an => an

/-- Method `IsResolved()`: the fully-qualified name is non-empty. -/
def AidlTypeSpecifier.isResolved (t : AidlTypeSpecifier) : Bool :=
  t.fullyQualifiedName ≠ ""

/-- Method `GetName()`: the fully-qualified name once resolved, otherwise the
unresolved name. -/
def AidlTypeSpecifier.getName (t : AidlTypeSpecifier) : String :=
  if t.isResolved then t.fullyQualifiedName else t.unresolvedName

/-- Method `IsGeneric()`: the type-parameter pointer is non-null. -/
def AidlTypeSpecifier.isGeneric (t : AidlTypeSpecifier) : Bool :=
  t.typeParams.isSome

/-- Method `GetTypeParameters()`: dereference of the (assumed non-null) pointer. -/
def AidlTypeSpecifier.getTypeParameters (t : AidlTypeSpecifier) : List AidlTypeSpecifier :=
  t.typeParams.getD []

mutual
/-- Model of `AidlTypeSpecifier::ToString()` (aidl_language.cpp): base name, then
`<t1,...,tn>` when generic, then `[]` when an array. -/
def AidlTypeSpecifier.render : AidlTypeSpecifier → String
  | .mk un fq arr params _ =>
    let name := if (fq ≠ "" : Bool) then fq else un
    let base :=
      match params with
      | none => name
      | some ps => name ++ "<" ++ String.intercalate "," (AidlTypeSpecifier.renderList ps) ++ ">"
    if arr then base ++ "[]" else base

def AidlTypeSpecifier.renderList : List AidlTypeSpecifier → List String
  | [] => []
  | t :: ts => AidlTypeSpecifier.render t :: AidlTypeSpecifier.renderList ts
end

/-- Model of `AidlTypeSpecifier::CheckValid()` (aidl_language.cpp): for a generic
specifier named `List`, more than one type parameter is rejected; for a
generic specifier named `Map`, a parameter count other than 0 or 2 is
rejected; everything else passes. -/
def AidlTypeSpecifier.checkValid (t : AidlTypeSpecifier) : Bool :=
  if t.isGeneric then
    let typeName := t.getName
    let num := t.getTypeParameters.length
    if typeName = "List" then
      if num > 1 then false else true
    else if typeName = "Map" then
      if num ≠ 0 ∧ num ≠ 2 then false else true
    else true
  else true


/-- Model of `AidlArgument` (aidl_language.h): a variable declaration with a
direction given as the bit flags `IN_DIR = 1, OUT_DIR = 2, INOUT_DIR = 3`. -/
structure AidlArgument where
  name : String
  direction : Nat
  argType : AidlTypeSpecifier

/-- Method `IsOut()`: `direction_ & OUT_DIR`. -/
def AidlArgument.isOut (a : AidlArgument) : Bool :=
  a.direction &&& 2 ≠ 0

/-- Model of `AidlMethod` (aidl_language.h): oneway flag, return type
(`GetType()`), name, arguments, and the transaction id together with the
`has_id_` flag (`SetId` updates only `id_`). -/
structure AidlMethod where
  oneway : Bool
  methodType : AidlTypeSpecifier
  name : String
  arguments : List AidlArgument
  hasId : Bool
  id : Int

/-- Constant `kMinUserSetMethodId` (aidl.cpp line 71). -/
def kMinUserSetMethodId : Int := 0

/-- Constant `kMaxUserSetMethodId` (aidl.cpp line 72). -/
def kMaxUserSetMethodId : Int := 16777214

/-- Errors `check_and_assign_method_ids` can report, each carrying the data
printed by the corresponding `AIDL_ERROR` message. -/
inductive MethodIdError where
  | duplicateId (methodName : String) (id : Int)
  | outOfBoundsId (methodName : String) (id : Int)
  | mixedIds
  deriving DecidableEq, Repr

/-- Model of the first loop of `check_and_assign_method_ids` (aidl.cpp):
walks the methods keeping the set of user ids seen so far and the two
flags `hasUnassignedIds` / `hasAssignedIds`; per item it checks duplicate
id, then bounds, then the mixed-assignment condition, in source order.
Returns the final value of `hasUnassignedIds` on success. -/
def checkMethodIdLoop : List AidlMethod → List Int → Bool → Bool → Except MethodIdError Bool
  | [], _, hasUnassignedIds, _ => .ok hasUnassignedIds
  | item :: rest, usedIds, hasUnassignedIds, hasAssignedIds =>
    if item.hasId then
      if item.id ∈ usedIds then
        .error (.duplicateId item.name item.id)
      else if item.id < kMinUserSetMethodId ∨ item.id > kMaxUserSetMethodId then
        .error (.outOfBoundsId item.name item.id)
      else if hasUnassignedIds then
        .error .mixedIds
      else
        checkMethodIdLoop rest (item.id :: usedIds) hasUnassignedIds true
    else
      if hasAssignedIds then
        .error .mixedIds
      else
        checkMethodIdLoop rest usedIds true hasAssignedIds

/-- Model of `check_and_assign_method_ids` (aidl.cpp lines 344-390): run the
checking loop; when every method lacked a user id, auto-assign ids 0,1,2,...
in declaration order (`item->SetId(newId++)`), otherwise leave the methods
untouched. -/
def check_and_assign_method_ids (items : List AidlMethod) :
    Except MethodIdError (List AidlMethod) :=
  match checkMethodIdLoop items [] false false with
  | .error e => .error e
  | .ok hasUnassignedIds =>
    if hasUnassignedIds then
      .ok (items.enum.map (fun p => { p.2 with id := (p.1 : Int) }))
    else
      .ok items

theorem checkMethodIdLoop_all_unassigned (items : List AidlMethod) (used : List Int) (hU : Bool)
    (h : ∀ m ∈ items, m.hasId = false) :
    checkMethodIdLoop items used hU false = .ok (hU || !items.isEmpty) := by
  induction items generalizing used hU with
  | nil => simp [checkMethodIdLoop]
  | cons item rest ih =>
    have hitem : item.hasId = false := h item (by simp)
    simp only [checkMethodIdLoop, hitem, Bool.false_eq_true, if_false]
    rw [ih used true (fun m hm => h m (by simp [hm]))]
    simp

theorem enum_assign_map_id (l : List AidlMethod) :
    (l.enum.map (fun p => { p.2 with id := (p.1 : Int) })).map AidlMethod.id
      = (List.range l.length).map Int.ofNat := by
  rw [List.map_map]
  have h : (AidlMethod.id ∘ fun p : Nat × AidlMethod => { p.2 with id := (p.1 : Int) })
      = (Int.ofNat ∘ Prod.fst) := rfl
  rw [h, ← List.map_map, List.enum_map_fst]

theorem enum_assign_map_name (l : List AidlMethod) :
    (l.enum.map (fun p => { p.2 with id := (p.1 : Int) })).map AidlMethod.name
      = l.map AidlMethod.name := by
  rw [List.map_map]
  have h : (AidlMethod.name ∘ fun p : Nat × AidlMethod => { p.2 with id := (p.1 : Int) })
      = (AidlMethod.name ∘ Prod.snd) := rfl
  rw [h, ← List.map_map, List.enum_map_snd]

/-- C1: for an interface none of whose methods carries a user-assigned
transaction id, `check_and_assign_method_ids` succeeds and gives the N
methods exactly the ids 0,...,N-1 in declaration order (the i-th declared
method receives id i), keeping the method list otherwise intact. -/
theorem auto_method_id_assignment (items : List AidlMethod)
    (h : ∀ m ∈ items, m.hasId = false) :
    ∃ out, check_and_assign_method_ids items = .ok out ∧
      out.map AidlMethod.id = (List.range items.length).map Int.ofNat ∧
      out.map AidlMethod.name = items.map AidlMethod.name := by
  cases items with
  | nil =>
    exact ⟨[], by simp [check_and_assign_method_ids, checkMethodIdLoop]⟩
  | cons x xs =>
    refine ⟨(x :: xs).enum.map (fun p => { p.2 with id := (p.1 : Int) }), ?_,
      enum_assign_map_id _, enum_assign_map_name _⟩
    unfold check_and_assign_method_ids
    rw [checkMethodIdLoop_all_unassigned _ _ _ h]
    simp

/-- Witness for C1 at a concrete two-method interface. -/
theorem auto_method_id_assignment_witness :
    (∀ m ∈ [AidlMethod.mk false (AidlTypeSpecifier.mk "void" "" false none []) "foo" [] false 0,
            AidlMethod.mk false (AidlTypeSpecifier.mk "void" "" false none []) "bar" [] false 0],
        m.hasId = false) ∧
    ∃ out,
      check_and_assign_method_ids
        [AidlMethod.mk false (AidlTypeSpecifier.mk "void" "" false none []) "foo" [] false 0,
         AidlMethod.mk false (AidlTypeSpecifier.mk "void" "" false none []) "bar" [] false 0] = .ok out ∧
      out.map AidlMethod.id = (List.range 2).map Int.ofNat ∧
      out.map AidlMethod.name = ["foo", "bar"] :=
  ⟨by decide, auto_method_id_assignment _ (by decide)⟩

theorem checkMethodIdLoop_mixed (items : List AidlMethod) :
    ∀ (used : List Int) (hU hA : Bool), ¬(hU = true ∧ hA = true) →
    (hA = true ∨ ∃ m ∈ items, m.hasId = true) →
    (hU = true ∨ ∃ m ∈ items, m.hasId = false) →
    ∃ e, checkMethodIdLoop items used hU hA = .error e := by
  induction items with
  | nil =>
    intro used hU hA hmix hsome hnone
    rcases hsome with hA' | ⟨m, hm, _⟩
    · rcases hnone with hU' | ⟨m, hm, _⟩
      · exact absurd ⟨hU', hA'⟩ hmix
      · simp at hm
    · simp at hm
  | cons item rest ih =>
    intro used hU hA hmix hsome hnone
    by_cases hid : item.hasId = true
    · by_cases hdup : item.id ∈ used
      · exact ⟨.duplicateId item.name item.id, by simp [checkMethodIdLoop, hid, hdup]⟩
      · by_cases hoob : item.id < kMinUserSetMethodId ∨ item.id > kMaxUserSetMethodId
        · exact ⟨.outOfBoundsId item.name item.id, by simp [checkMethodIdLoop, hid, hdup, hoob]⟩
        · by_cases hU' : hU = true
          · exact ⟨.mixedIds, by simp [checkMethodIdLoop, hid, hdup, hoob, hU']⟩
          · have hUf : hU = false := by
              cases hU
              · rfl
              · exact absurd rfl hU'
            subst hUf
            obtain ⟨e, he⟩ := ih (item.id :: used) false true (by simp)
              (Or.inl rfl)
              (by
                rcases hnone with h | ⟨m, hm, hmf⟩
                · exact absurd h (by simp)
                · rcases List.mem_cons.mp hm with rfl | hmr
                  · rw [hid] at hmf; exact absurd hmf (by simp)
                  · exact Or.inr ⟨m, hmr, hmf⟩)
            exact ⟨e, by simp [checkMethodIdLoop, hid, hdup, hoob, he]⟩
    · have hidf : item.hasId = false := by
        cases h : item.hasId
        · rfl
        · exact absurd h hid
      by_cases hA' : hA = true
      · exact ⟨.mixedIds, by simp [checkMethodIdLoop, hidf, hA']⟩
      · have hAf : hA = false := by
          cases hA
          · rfl
          · exact absurd rfl hA'
        subst hAf
        obtain ⟨e, he⟩ := ih used true false (by simp)
          (by
            rcases hsome with h | ⟨m, hm, hmt⟩
            · exact absurd h (by simp)
            · rcases List.mem_cons.mp hm with rfl | hmr
              · exact absurd hmt hid
              · exact Or.inr ⟨m, hmr, hmt⟩)
          (Or.inl rfl)
        exact ⟨e, by simp [checkMethodIdLoop, hidf, he]⟩

/-- C2: for an interface whose method list mixes user-assigned and
unassigned transaction ids, `check_and_assign_method_ids` fails with an
error (so it never reaches the auto-assignment phase), regardless of how
many methods of each kind there are. -/
theorem mixed_method_ids_rejected (items : List AidlMethod)
    (h1 : ∃ m ∈ items, m.hasId = true) (h2 : ∃ m ∈ items, m.hasId = false) :
    ∃ e, check_and_assign_method_ids items = .error e := by
  obtain ⟨e, he⟩ := checkMethodIdLoop_mixed items [] false false (by simp)
    (Or.inr h1) (Or.inr h2)
  exact ⟨e, by simp [check_and_assign_method_ids, he]⟩

/-- Witness for C2 at a concrete interface with one assigned and one
unassigned method id. -/
theorem mixed_method_ids_rejected_witness :
    (∃ m ∈ [AidlMethod.mk false (AidlTypeSpecifier.mk "void" "" false none []) "foo" [] true 3,
            AidlMethod.mk false (AidlTypeSpecifier.mk "void" "" false none []) "bar" [] false 0],
        m.hasId = true) ∧
    (∃ m ∈ [AidlMethod.mk false (AidlTypeSpecifier.mk "void" "" false none []) "foo" [] true 3,
            AidlMethod.mk false (AidlTypeSpecifier.mk "void" "" false none []) "bar" [] false 0],
        m.hasId = false) ∧
    ∃ e, check_and_assign_method_ids
        [AidlMethod.mk false (AidlTypeSpecifier.mk "void" "" false none []) "foo" [] true 3,
         AidlMethod.mk false (AidlTypeSpecifier.mk "void" "" false none []) "bar" [] false 0]
      = .error e :=
  ⟨by decide, by decide, mixed_method_ids_rejected _ (by decide) (by decide)⟩

theorem checkMethodIdLoop_all_valid (items : List AidlMethod) :
    ∀ (used : List Int) (hA : Bool),
    (∀ m ∈ items, m.hasId = true) →
    (∀ m ∈ items, ¬(m.id < kMinUserSetMethodId ∨ m.id > kMaxUserSetMethodId)) →
    (∀ m ∈ items, m.id ∉ used) →
    (items.map AidlMethod.id).Nodup →
    checkMethodIdLoop items used false hA = .ok false := by
  induction items with
  | nil => intro used hA _ _ _ _; simp [checkMethodIdLoop]
  | cons item rest ih =>
    intro used hA hall hrange hused hnodup
    have hid := hall item (by simp)
    have hr := hrange item (by simp)
    have hu := hused item (by simp)
    have hhead : item.id ∉ rest.map AidlMethod.id := (List.nodup_cons.mp hnodup).1
    rw [checkMethodIdLoop]
    simp only [hid, if_true, hu, hr, if_false, Bool.false_eq_true]
    exact ih (item.id :: used) true
      (fun m hm => hall m (by simp [hm]))
      (fun m hm => hrange m (by simp [hm]))
      (fun m hm => by
        simp only [List.mem_cons]
        rintro (heq | hin)
        · exact hhead (heq ▸ List.mem_map_of_mem AidlMethod.id hm)
        · exact hused m (by simp [hm]) hin)
      (List.nodup_cons.mp hnodup).2

theorem checkMethodIdLoop_ok_valid (items : List AidlMethod) :
    ∀ (used : List Int) (hA b : Bool),
    (∀ m ∈ items, m.hasId = true) →
    checkMethodIdLoop items used false hA = .ok b →
    (∀ m ∈ items,
        ¬(m.id < kMinUserSetMethodId ∨ m.id > kMaxUserSetMethodId) ∧ m.id ∉ used) ∧
    (items.map AidlMethod.id).Nodup := by
  induction items with
  | nil => intro used hA b _ _; simp
  | cons item rest ih =>
    intro used hA b hall hok
    have hid := hall item (by simp)
    by_cases hdup : item.id ∈ used
    · rw [checkMethodIdLoop] at hok
      simp [hid, hdup] at hok
    · by_cases hoob : item.id < kMinUserSetMethodId ∨ item.id > kMaxUserSetMethodId
      · rw [checkMethodIdLoop] at hok
        simp [hid, hdup, hoob] at hok
      · rw [checkMethodIdLoop] at hok
        simp only [hid, if_true, hdup, hoob, if_false, Bool.false_eq_true] at hok
        obtain ⟨hrest, hnodup⟩ := ih (item.id :: used) true b
          (fun m hm => hall m (by simp [hm])) hok
        refine ⟨?_, ?_⟩
        · intro m hm
          rcases List.mem_cons.mp hm with rfl | hmr
          · exact ⟨hoob, hdup⟩
          · refine ⟨(hrest m hmr).1, fun hin => (hrest m hmr).2 (by simp [hin])⟩
        · rw [List.map_cons, List.nodup_cons]
          refine ⟨fun hin => ?_, hnodup⟩
          obtain ⟨m, hmr, hmid⟩ := List.mem_map.mp hin
          exact (hrest m hmr).2 (by simp [hmid])

/-- Predicate used to state lemma `checkMethodIdLoop_error_offender`: the
reported error names a method of the list whose user-set id is a duplicate
(relative to the list and the already-seen ids) or out of bounds. -/
def OffenderAux (items : List AidlMethod) (used : List Int) : MethodIdError → Prop
  | .mixedIds => False
  | .duplicateId n i =>
      (∃ m ∈ items, m.name = n ∧ m.id = i) ∧
      (i ∈ used ∨ 2 ≤ (items.map AidlMethod.id).count i)
  | .outOfBoundsId n i =>
      (∃ m ∈ items, m.name = n ∧ m.id = i) ∧
      (i < kMinUserSetMethodId ∨ kMaxUserSetMethodId < i)

theorem checkMethodIdLoop_error_offender (items : List AidlMethod) :
    ∀ (used : List Int) (hA : Bool) (e : MethodIdError),
    (∀ m ∈ items, m.hasId = true) →
    checkMethodIdLoop items used false hA = .error e →
    OffenderAux items used e := by
  induction items with
  | nil => intro used hA e _ herr; simp [checkMethodIdLoop] at herr
  | cons item rest ih =>
    intro used hA e hall herr
    have hid := hall item (by simp)
    by_cases hdup : item.id ∈ used
    · rw [checkMethodIdLoop] at herr
      simp only [hid, if_true, hdup, if_pos] at herr
      obtain rfl : MethodIdError.duplicateId item.name item.id = e := by
        cases herr; rfl
      exact ⟨⟨item, by simp, rfl, rfl⟩, Or.inl hdup⟩
    · by_cases hoob : item.id < kMinUserSetMethodId ∨ item.id > kMaxUserSetMethodId
      · rw [checkMethodIdLoop] at herr
        simp only [hid, if_true, hdup, if_false, hoob, if_pos] at herr
        obtain rfl : MethodIdError.outOfBoundsId item.name item.id = e := by
          cases herr; rfl
        exact ⟨⟨item, by simp, rfl, rfl⟩, hoob⟩
      · rw [checkMethodIdLoop] at herr
        simp only [hid, if_true, hdup, hoob, if_false, Bool.false_eq_true] at herr
        have hoff := ih (item.id :: used) true e
          (fun m hm => hall m (by simp [hm])) herr
        cases e with
        | mixedIds => exact hoff
        | duplicateId n i =>
          obtain ⟨⟨m, hmr, hn, hi⟩, hdupc⟩ := hoff
          refine ⟨⟨m, by simp [hmr], hn, hi⟩, ?_⟩
          rcases hdupc with hin | hcount
          · rcases List.mem_cons.mp hin with heq | hinu
            · subst heq
              right
              have hpos : 0 < (rest.map AidlMethod.id).count item.id :=
                List.count_pos_iff.mpr (hi ▸ List.mem_map_of_mem AidlMethod.id hmr)
              rw [List.map_cons, List.count_cons_self]
              omega
            · exact Or.inl hinu
          · right
            rw [List.map_cons]
            calc 2 ≤ (rest.map AidlMethod.id).count i := hcount
              _ ≤ ((item.id :: rest.map AidlMethod.id).count i) := by
                  rw [List.count_cons]
                  omega
        | outOfBoundsId n i =>
          obtain ⟨⟨m, hmr, hn, hi⟩, hrng⟩ := hoff
          exact ⟨⟨m, by simp [hmr], hn, hi⟩, hrng⟩

/-- Predicate stating that a method-id error identifies an offending method
of the interface: it names a method of the list together with its id, and
that id is duplicated within the list (for a duplicate error) or out of the
legal range (for an out-of-bounds error). -/
def IdentifiesOffender (items : List AidlMethod) : MethodIdError → Prop
  | .mixedIds => False
  | .duplicateId n i =>
      (∃ m ∈ items, m.name = n ∧ m.id = i) ∧ 2 ≤ (items.map AidlMethod.id).count i
  | .outOfBoundsId n i =>
      (∃ m ∈ items, m.name = n ∧ m.id = i) ∧
      (i < kMinUserSetMethodId ∨ kMaxUserSetMethodId < i)

/-- C3: for an interface all of whose methods carry user-assigned
transaction ids, `check_and_assign_method_ids` succeeds leaving the ids
unchanged when the ids are pairwise distinct and all within
`[kMinUserSetMethodId, kMaxUserSetMethodId]`, and otherwise fails with an
error identifying an offending method. -/
theorem user_assigned_method_ids_validated (items : List AidlMethod)
    (hall : ∀ m ∈ items, m.hasId = true) :
    (((∀ m ∈ items, kMinUserSetMethodId ≤ m.id ∧ m.id ≤ kMaxUserSetMethodId) ∧
        (items.map AidlMethod.id).Nodup) →
      check_and_assign_method_ids items = .ok items) ∧
    ((¬ ((∀ m ∈ items, kMinUserSetMethodId ≤ m.id ∧ m.id ≤ kMaxUserSetMethodId) ∧
        (items.map AidlMethod.id).Nodup)) →
      ∃ e, check_and_assign_method_ids items = .error e ∧ IdentifiesOffender items e) := by
  constructor
  · rintro ⟨hr, hnd⟩
    have hok := checkMethodIdLoop_all_valid items [] false hall
      (fun m hm => by have := hr m hm; omega) (fun m _ => List.not_mem_nil m.id) hnd
    simp [check_and_assign_method_ids, hok]
  · intro hviol
    cases hres : checkMethodIdLoop items [] false false with
    | ok b =>
      obtain ⟨h1, h2⟩ := checkMethodIdLoop_ok_valid items [] false b hall hres
      exact absurd ⟨fun m hm => by have := (h1 m hm).1; omega, h2⟩ hviol
    | error e =>
      have hoff := checkMethodIdLoop_error_offender items [] false e hall hres
      refine ⟨e, by simp [check_and_assign_method_ids, hres], ?_⟩
      cases e with
      | mixedIds => exact hoff
      | duplicateId n i =>
        obtain ⟨hm, hdupc⟩ := hoff
        rcases hdupc with hin | hcount
        · exact absurd hin (List.not_mem_nil i)
        · exact ⟨hm, hcount⟩
      | outOfBoundsId n i => exact hoff

/-- Witness for C3 at a concrete interface whose two methods both carry
valid distinct user-assigned ids. -/
theorem user_assigned_method_ids_validated_witness :
    (∀ m ∈ [AidlMethod.mk false (AidlTypeSpecifier.mk "void" "" false none []) "foo" [] true 7,
            AidlMethod.mk false (AidlTypeSpecifier.mk "void" "" false none []) "bar" [] true 2],
        m.hasId = true) ∧
    check_and_assign_method_ids
        [AidlMethod.mk false (AidlTypeSpecifier.mk "void" "" false none []) "foo" [] true 7,
         AidlMethod.mk false (AidlTypeSpecifier.mk "void" "" false none []) "bar" [] true 2]
      = .ok [AidlMethod.mk false (AidlTypeSpecifier.mk "void" "" false none []) "foo" [] true 7,
             AidlMethod.mk false (AidlTypeSpecifier.mk "void" "" false none []) "bar" [] true 2] :=
  ⟨by decide,
    (user_assigned_method_ids_validated _ (by decide)).1 ⟨by decide, by decide⟩⟩

/-- C8: structural validation of a type specifier checks only generic
container arity — `checkValid` returns false exactly for a generic
specifier named `List` with more than one type parameter and for a generic
specifier named `Map` with a parameter count other than 0 or 2; every other
specifier (including bare `List`, `List<A>`, `Map`, and `Map<K,V>`)
passes. -/
theorem check_valid_characterization (t : AidlTypeSpecifier) :
    t.checkValid = false ↔
      t.isGeneric = true ∧
        ((t.getName = "List" ∧ 1 < t.getTypeParameters.length) ∨
         (t.getName = "Map" ∧
            t.getTypeParameters.length ≠ 0 ∧ t.getTypeParameters.length ≠ 2)) := by
  unfold AidlTypeSpecifier.checkValid
  by_cases hg : t.isGeneric = true <;> by_cases hl : t.getName = "List" <;>
    by_cases hm : t.getName = "Map" <;> simp_all

/-- Kind of an `AidlDefinedType` (aidl_language.h): interface, unstructured
parcelable, or structured parcelable (`AidlStructuredParcelable` derives
from `AidlParcelable`, so `AsParcelable()` is non-null for both parcelable
kinds). -/
inductive DefinedKind where
  | interfaceKind
  | parcelableKind
  | structuredParcelableKind
  deriving DecidableEq, Repr

/-- Model of an `AidlDefinedType` as seen by the type registry: bare name,
dotted package, and kind. -/
structure AidlDefinedTypeM where
  name : String
  package : String
  kind : DefinedKind
  deriving DecidableEq, Repr

/-- Method `GetCanonicalName()` (aidl_language.cpp): the package and the
name joined by a dot, or just the name when the package is empty. -/
def AidlDefinedTypeM.canonicalName (d : AidlDefinedTypeM) : String :=
  if d.package = "" then d.name else d.package ++ "." ++ d.name

/-- Method `AsParcelable()`: non-null exactly for the two parcelable
kinds. -/
def AidlDefinedTypeM.asParcelable (d : AidlDefinedTypeM) : Bool :=
  match d.kind with
  | .interfaceKind => false
  | .parcelableKind => true
  | .structuredParcelableKind => true

/-- Model of `AidlTypenames` (aidl_typenames.h): the locally defined types
and the preprocessed types, each a map keyed by canonical name, modelled as
association lists in iteration order. -/
structure AidlTypenames where
  definedTypes : List AidlDefinedTypeM
  preprocessedTypes : List AidlDefinedTypeM

/-- Constant `kBuiltinTypes` (aidl_typenames.cpp). -/
def kBuiltinTypes : List String :=
  ["void", "boolean", "byte", "char", "int", "long", "float", "double",
   "String", "List", "Map", "IBinder", "FileDescriptor", "CharSequence"]

/-- Constant `kJavaLikeTypeToAidlType` (aidl_typenames.cpp). -/
def kJavaLikeTypeToAidlType : List (String × String) :=
  [("java.util.List", "List"), ("java.util.Map", "Map")]

/-- Model of `AidlTypenames::IsBuiltinTypename`: the name occurs in
`kBuiltinTypes` or is one of the legacy Java-style aliases. -/
def IsBuiltinTypename (typeName : String) : Bool :=
  typeName ∈ kBuiltinTypes || kJavaLikeTypeToAidlType.any (fun p => p.1 = typeName)

/-- Model of `AidlTypenames::TryGetDefinedType`: exact match by canonical
name in the defined tier, then in the preprocessed tier, then a fallback
scan by bare class name over the defined tier and finally over the
preprocessed tier. -/
def TryGetDefinedType (tn : AidlTypenames) (typeName : String) : Option AidlDefinedTypeM :=
  match tn.definedTypes.find? (fun d => d.canonicalName = typeName) with
  | some d => some d
  | none =>
    match tn.preprocessedTypes.find? (fun d => d.canonicalName = typeName) with
    | some d => some d
    | none =>
      match tn.definedTypes.find? (fun d => d.name = typeName) with
      | some d => some d
      | none => tn.preprocessedTypes.find? (fun d => d.name = typeName)

/-- Model of `AidlTypenames::CanBeOutParameter` (aidl_typenames.cpp lines
130-139): for a builtin base type name, true iff the specifier is an array
or is named `List` or `Map`; otherwise look the name up in the registry
(the `CHECK` on an unknown name is modelled as `none`) and answer whether
the defined type is of parcelable kind. -/
def CanBeOutParameter (tn : AidlTypenames) (t : AidlTypeSpecifier) : Option Bool :=
  if IsBuiltinTypename t.getName then
    some (t.isArray || t.getName = "List" || t.getName = "Map")
  else
    match TryGetDefinedType tn t.getName with
    | none => none
    | some d => some d.asParcelable

/-- Registry holding a single interface type, used as the concrete input
refuting the array clause of the out-parameter claim. -/
def tnInterfaceOnly : AidlTypenames :=
  ⟨[⟨"IFoo", "pkg", .interfaceKind⟩], []⟩

/-- Resolved array-of-interface type specifier `pkg.IFoo[]`. -/
def tsInterfaceArray : AidlTypeSpecifier :=
  .mk "IFoo" "pkg.IFoo" true none []

/-- Counterexample for C9 as stated: `tsInterfaceArray` is an array, yet
`CanBeOutParameter` answers false for it, because a non-builtin name is
decided purely by whether the defined type is a parcelable. -/
theorem can_be_out_parameter_array_claim_false :
    tsInterfaceArray.isArray = true ∧
    CanBeOutParameter tnInterfaceOnly tsInterfaceArray = some false := by
  constructor
  · rfl
  · rfl

/-- C9 (amended): `CanBeOutParameter` is true for a builtin-named specifier
iff it is an array or named `List` or `Map`, and for a specifier whose
non-builtin name resolves in the registry iff the resolved defined type is
of parcelable kind (regardless of the array flag); an unresolvable
non-builtin name is a fatal internal check. -/
theorem can_be_out_parameter_characterization (tn : AidlTypenames) (t : AidlTypeSpecifier) :
    (IsBuiltinTypename t.getName = true →
      CanBeOutParameter tn t
        = some (t.isArray || t.getName = "List" || t.getName = "Map")) ∧
    (IsBuiltinTypename t.getName = false →
      ∀ d, TryGetDefinedType tn t.getName = some d →
        CanBeOutParameter tn t = some d.asParcelable) ∧
    (IsBuiltinTypename t.getName = false →
      TryGetDefinedType tn t.getName = none →
      CanBeOutParameter tn t = none) := by
  refine ⟨fun hb => ?_, fun hb d hd => ?_, fun hb hn => ?_⟩
  · simp [CanBeOutParameter, hb]
  · simp [CanBeOutParameter, hb, hd]
  · simp [CanBeOutParameter, hb, hn]

/-- Witness for the amended C9 at concrete inputs: `int[]` (builtin, array)
is accepted, and a structured parcelable type is accepted. -/
theorem can_be_out_parameter_characterization_witness :
    (IsBuiltinTypename (AidlTypeSpecifier.mk "int" "" true none []).getName = true ∧
      CanBeOutParameter tnInterfaceOnly (AidlTypeSpecifier.mk "int" "" true none [])
        = some true) ∧
    (IsBuiltinTypename tsInterfaceArray.getName = false ∧
      TryGetDefinedType tnInterfaceOnly tsInterfaceArray.getName
          = some ⟨"IFoo", "pkg", .interfaceKind⟩ ∧
      CanBeOutParameter tnInterfaceOnly tsInterfaceArray = some false) := by
  refine ⟨⟨by decide, ?_⟩, ⟨by decide, by decide, ?_⟩⟩
  · have h := (can_be_out_parameter_characterization tnInterfaceOnly
      (AidlTypeSpecifier.mk "int" "" true none [])).1 (by decide)
    simpa using h
  · have h := ((can_be_out_parameter_characterization tnInterfaceOnly
      tsInterfaceArray).2.1 (by decide)) ⟨"IFoo", "pkg", .interfaceKind⟩ (by decide)
    simpa using h

/-- Three-way comparison of two character sequences, byte-wise like
`std::string::compare`: negative, zero, or positive. -/
def charListCompare : List Char → List Char → Int
  | [], [] => 0
  | [], _ :: _ => -1
  | _ :: _, [] => 1
  | a :: as, b :: bs =>
    if a.toNat < b.toNat then -1
    else if b.toNat < a.toNat then 1
    else charListCompare as bs

/-- Model of `std::string::compare` on the two strings. -/
def stringCompare (a b : String) : Int :=
  charListCompare a.data b.data

/-- Model of the comparator lambda passed to `std::sort` in `dump_api`
(aidl.cpp lines 802-808): `return lhs->GetName().compare(rhs->GetName());`
returns the `int` of `string::compare`, implicitly converted to `bool`, so
the predicate holds iff the compare result is non-zero. -/
def dump_api_sort_comparator (lhs rhs : String) : Bool :=
  stringCompare lhs rhs ≠ 0

/-- C10 (code bug): the comparator used to sort types within a package
claims both that `"B"` orders before `"A"` and that `"A"` orders before
`"B"` — it holds for every pair of distinct names — so it is not
asymmetric, hence not a strict weak ordering and not the lexicographic
order the surrounding comment announces (`"B"` compares lexicographically
after `"A"`, third conjunct); `std::sort` on it is undefined behavior
rather than a lexicographic sort. -/
theorem dump_api_comparator_not_lexicographic :
    dump_api_sort_comparator "B" "A" = true ∧
    dump_api_sort_comparator "A" "B" = true ∧
    0 < stringCompare "B" "A" := by
  refine ⟨by decide, by decide, by decide⟩

/-- Value of a single hexadecimal digit, upper or lower case. -/
def hexDigitValue (c : Char) : Option Nat :=
  if '0' ≤ c ∧ c ≤ '9' then some (c.toNat - '0'.toNat)
  else if 'a' ≤ c ∧ c ≤ 'f' then some (c.toNat - 'a'.toNat + 10)
  else if 'A' ≤ c ∧ c ≤ 'F' then some (c.toNat - 'A'.toNat + 10)
  else none

/-- Accumulating parse of a run of hexadecimal digits. -/
def parseHexDigits : List Char → Nat → Option Nat
  | [], acc => some acc
  | c :: cs, acc =>
    match hexDigitValue c with
    | none => none
    | some d => parseHexDigits cs (acc * 16 + d)

/-- Model of `android::base::ParseUint<uintN_t>` applied to a hexadecimal
literal: a `0x`/`0X` prefix followed by at least one hex digit, whose value
must fit the unsigned width `w` (out-of-range fails the parse). -/
def parseUintHex (w : Nat) (s : String) : Option Nat :=
  match s.data with
  | '0' :: x :: ds =>
    if (x = 'x' ∨ x = 'X') ∧ ds ≠ [] then
      match parseHexDigits ds 0 with
      | some u => if u < 2 ^ w then some u else none
      | none => none
    else none
  | _ => none

/-- Reinterpretation of a `w`-bit unsigned value as signed two's
complement, i.e. the C++ casts `(int8_t)`, `(int32_t)`, `(int64_t)` applied
to the same-width unsigned value. -/
def toSigned (w : Nat) (u : Nat) : Int :=
  if u < 2 ^ (w - 1) then (u : Int) else (u : Int) - 2 ^ w

/-- Model of the `HEXIDECIMAL` case of `AidlConstantValue::As`
(aidl_const_expressions.cpp lines 152-170) with the identity decorator:
a generic declared type is an error, an array declared type is a kind
mismatch for a hex literal, and against `byte`/`int`/`long` the literal is
parsed as an unsigned integer of width 8/32/64 and rendered via
`std::to_string` of the signed reinterpretation; any other declared type is
a mismatch error (the empty-string sentinel, modelled as `none`). -/
def hexAs (value : String) (type : AidlTypeSpecifier) : Option String :=
  if type.isGeneric then none
  else if type.isArray then none
  else if type.getName = "byte" then
    (parseUintHex 8 value).map (fun u => toString (toSigned 8 u))
  else if type.getName = "int" then
    (parseUintHex 32 value).map (fun u => toString (toSigned 32 u))
  else if type.getName = "long" then
    (parseUintHex 64 value).map (fun u => toString (toSigned 64 u))
  else none

/-- C7: rendering a hexadecimal constant against a declared integer type
parses the literal as an unsigned integer of the declared width and
reinterprets the bit pattern as signed: `0xFFFFFFFF` against `int` renders
as `-1`, `0xFF` against `byte` renders as `-1`, and against `long` any
literal parsed to the 64-bit unsigned value `u` renders as the signed
64-bit reinterpretation of `u`. -/
theorem hex_literal_rendering :
    (∀ t : AidlTypeSpecifier, t.isGeneric = false → t.isArray = false →
      t.getName = "int" → hexAs "0xFFFFFFFF" t = some "-1") ∧
    (∀ t : AidlTypeSpecifier, t.isGeneric = false → t.isArray = false →
      t.getName = "byte" → hexAs "0xFF" t = some "-1") ∧
    (∀ (t : AidlTypeSpecifier) (s : String) (u : Nat), t.isGeneric = false →
      t.isArray = false → t.getName = "long" → parseUintHex 64 s = some u →
      hexAs s t = some (toString (toSigned 64 u))) := by
  refine ⟨fun t hg ha hn => ?_, fun t hg ha hn => ?_, fun t s u hg ha hn hp => ?_⟩
  · simp only [hexAs, hg, ha, hn, Bool.false_eq_true, if_false, if_true,
      String.reduceEq, reduceIte]
    decide
  · simp only [hexAs, hg, ha, hn, Bool.false_eq_true, if_false, if_true,
      String.reduceEq, reduceIte]
    decide
  · simp only [hexAs, hg, ha, hn, Bool.false_eq_true, if_false, if_true,
      String.reduceEq, reduceIte, hp]
    rfl

/-- Witness for C7 at concrete declared types and, for the `long` clause,
at the literal `0xFFFFFFFFFFFFFFFF`, whose 64-bit signed reinterpretation
is -1. -/
theorem hex_literal_rendering_witness :
    hexAs "0xFFFFFFFF" (AidlTypeSpecifier.mk "int" "" false none []) = some "-1" ∧
    hexAs "0xFF" (AidlTypeSpecifier.mk "byte" "" false none []) = some "-1" ∧
    hexAs "0xFFFFFFFFFFFFFFFF" (AidlTypeSpecifier.mk "long" "" false none [])
      = some (toString (toSigned 64 18446744073709551615)) :=
  ⟨hex_literal_rendering.1 _ rfl rfl rfl,
   hex_literal_rendering.2.1 _ rfl rfl rfl,
   hex_literal_rendering.2.2 _ _ 18446744073709551615 rfl rfl rfl (by decide)⟩

/-- Model of `AidlInterface` (aidl_language.h): name, the interface-level
oneway flag, the annotation set of the `AidlAnnotatable` base (as the list
of annotation names), and the owned methods. -/
structure AidlInterface where
  name : String
  oneway : Bool
  annotations : List String
  methods : List AidlMethod

/-- Method `IsUtf8()`: an annotation named `utf8` is present. -/
def AidlInterface.isUtf8 (c : AidlInterface) : Bool :=
  c.annotations.contains "utf8"

/-- Method `IsUtf8InCpp()`: an annotation named `utf8InCpp` is present. -/
def AidlInterface.isUtf8InCpp (c : AidlInterface) : Bool :=
  c.annotations.contains "utf8InCpp"

/-- Modelled from the spec: `GetAnnotations()` and its `!=` comparison in
`have_compatible_annotations` (aidl_apicheck.cpp) — the accessor is absent
from the checked-in aidl_language.h, and per the spec annotations are
compared as an unordered sorted-for-display set, any difference being
incompatible; modelled as equality of the (canonically sorted) lists of
annotation names. -/
def have_compatible_annotations (older newer : List String) : Bool :=
  older = newer

/-- Model of `are_compatible_types` (aidl_apicheck.cpp): the rendered
`ToString()` forms must agree and the annotation sets must agree. -/
def are_compatible_types (older newer : AidlTypeSpecifier) : Bool :=
  (older.render = newer.render) &&
    have_compatible_annotations older.annotations newer.annotations

/-- Model of `AidlMethod::Signature()` (aidl_language.cpp): the method name
followed by the parenthesized comma-separated rendered argument types. -/
def AidlMethod.signature (m : AidlMethod) : String :=
  m.name ++ "(" ++ String.intercalate ", " (m.arguments.map (fun a => a.argType.render)) ++ ")"

/-- Lookup in the `new_methods` map of `are_compatible_interfaces`: the map
is filled with `emplace` (first insertion wins), so lookup by signature is
the first method of `newer` with that signature. -/
def findNewMethod (newer : AidlInterface) (sig : String) : Option AidlMethod :=
  newer.methods.find? (fun m => m.signature = sig)

/-- Body of the per-old-method loop of `are_compatible_interfaces`
(aidl_apicheck.cpp lines 64-101): a signature missing from `newer` or a
changed transaction id, return type, argument type, or argument direction
makes the accumulated flag false; the `CHECK` that matched signatures have
equally many arguments is modelled as `none`. -/
def methodCompatStep (newer : AidlInterface) (compatible : Bool) (old_m : AidlMethod) :
    Option Bool :=
  match findNewMethod newer old_m.signature with
  | none => some false
  | some new_m =>
    if old_m.arguments.length = new_m.arguments.length then
      some (compatible && (old_m.id == new_m.id)
        && are_compatible_types old_m.methodType new_m.methodType
        && (old_m.arguments.zip new_m.arguments).all
            (fun p => are_compatible_types p.1.argType p.2.argType
              && (p.1.direction == p.2.direction)))
    else none

/-- Model of `are_compatible_interfaces` (aidl_apicheck.cpp): annotation
compatibility of the two interfaces seeds the accumulator, then every
method of `older` is checked against the signature-keyed map of `newer`'s
methods. -/
def are_compatible_interfaces (older newer : AidlInterface) : Option Bool :=
  older.methods.foldlM (methodCompatStep newer)
    (have_compatible_annotations older.annotations newer.annotations)

/-- Value a single old method contributes to the compatibility
conjunction. -/
def methodCompatOk (newer : AidlInterface) (old_m : AidlMethod) : Bool :=
  match findNewMethod newer old_m.signature with
  | none => false
  | some new_m =>
    (old_m.id == new_m.id)
      && are_compatible_types old_m.methodType new_m.methodType
      && (old_m.arguments.zip new_m.arguments).all
          (fun p => are_compatible_types p.1.argType p.2.argType
            && (p.1.direction == p.2.direction))

theorem methodCompatStep_eq (newer : AidlInterface) (compatible : Bool) (old_m : AidlMethod)
    (hnc : ∀ n, findNewMethod newer old_m.signature = some n →
      old_m.arguments.length = n.arguments.length) :
    methodCompatStep newer compatible old_m = some (compatible && methodCompatOk newer old_m) := by
  unfold methodCompatStep methodCompatOk
  cases hf : findNewMethod newer old_m.signature with
  | none => simp
  | some n => simp [hnc n hf, Bool.and_assoc]

theorem foldlM_methodCompatStep (newer : AidlInterface) (ms : List AidlMethod) :
    ∀ (acc : Bool),
    (∀ o ∈ ms, ∀ n, findNewMethod newer o.signature = some n →
      o.arguments.length = n.arguments.length) →
    ms.foldlM (methodCompatStep newer) acc = some (acc && ms.all (methodCompatOk newer)) := by
  induction ms with
  | nil => intro acc _; simp
  | cons o rest ih =>
    intro acc hnc
    rw [List.foldlM_cons, methodCompatStep_eq newer acc o (hnc o (by simp))]
    show rest.foldlM (methodCompatStep newer) (acc && methodCompatOk newer o) = _
    rw [ih _ (fun o' ho' => hnc o' (by simp [ho']))]
    simp [Bool.and_assoc]

/-- C4: whenever a method of the old interface is matched by signature in
the new interface but its assigned transaction id differs, the interface
compatibility check reports incompatibility (provided no matched pair
trips the argument-count internal check, which signature equality
guarantees). -/
theorem changed_transaction_id_incompatible (older newer : AidlInterface)
    (hnc : ∀ o ∈ older.methods, ∀ n, findNewMethod newer o.signature = some n →
      o.arguments.length = n.arguments.length)
    (o : AidlMethod) (ho : o ∈ older.methods)
    (n : AidlMethod) (hn : findNewMethod newer o.signature = some n)
    (hid : o.id ≠ n.id) :
    are_compatible_interfaces older newer = some false := by
  unfold are_compatible_interfaces
  rw [foldlM_methodCompatStep newer older.methods _ hnc]
  have hok : methodCompatOk newer o = false := by
    unfold methodCompatOk
    rw [hn]
    simp [hid]
  have hall : older.methods.all (methodCompatOk newer) = false :=
    List.all_eq_false.mpr ⟨o, ho, by simp [hok]⟩
  rw [hall, Bool.and_false]

/-- Old interface for the C4 witness: `foo()` at transaction id 0. -/
def ifaceFooIdZero : AidlInterface :=
  AidlInterface.mk "IFoo" false []
    [AidlMethod.mk false (AidlTypeSpecifier.mk "void" "" false none []) "foo" [] true 0]

/-- New interface for the C4 witness: the same `foo()` signature at
transaction id 1. -/
def ifaceFooIdOne : AidlInterface :=
  AidlInterface.mk "IFoo" false []
    [AidlMethod.mk false (AidlTypeSpecifier.mk "void" "" false none []) "foo" [] true 1]

/-- Witness for C4: `foo()` has id 0 in the old interface and id 1 (same
signature) in the new one, and the checker reports incompatibility. -/
theorem changed_transaction_id_incompatible_witness :
    (∀ o ∈ ifaceFooIdZero.methods, ∀ n, findNewMethod ifaceFooIdOne o.signature = some n →
      o.arguments.length = n.arguments.length) ∧
    are_compatible_interfaces ifaceFooIdZero ifaceFooIdOne = some false := by
  have hnc : ∀ o ∈ ifaceFooIdZero.methods, ∀ n,
      findNewMethod ifaceFooIdOne o.signature = some n →
      o.arguments.length = n.arguments.length := by
    intro o ho n hn
    rcases List.mem_singleton.mp ho with rfl
    have hev : findNewMethod ifaceFooIdOne
        (AidlMethod.mk false (AidlTypeSpecifier.mk "void" "" false none []) "foo" [] true 0).signature
        = some (AidlMethod.mk false (AidlTypeSpecifier.mk "void" "" false none []) "foo" [] true 1) := rfl
    rw [hev] at hn
    cases hn
    rfl
  refine ⟨hnc, ?_⟩
  exact changed_transaction_id_incompatible ifaceFooIdZero ifaceFooIdOne hnc
    (AidlMethod.mk false (AidlTypeSpecifier.mk "void" "" false none []) "foo" [] true 0)
    (List.mem_singleton.mpr rfl)
    (AidlMethod.mk false (AidlTypeSpecifier.mk "void" "" false none []) "foo" [] true 1)
    rfl
    (by decide)

/-- Model of `AidlVariableDeclaration` (aidl_language.h) as a parcelable
field: a name and a type. -/
structure AidlVariableDeclaration where
  name : String
  varType : AidlTypeSpecifier

/-- Model of `AidlStructuredParcelable` (aidl_language.h): a name and the
ordered field list. -/
structure AidlStructuredParcelable where
  name : String
  fields : List AidlVariableDeclaration

/-- Model of `are_compatible_parcelables` (aidl_apicheck.cpp lines
105-130): fewer fields in the new parcelable is immediately incompatible;
otherwise each old field index must agree with the new field at the same
index on type (rendered form and annotations) and on field name. -/
def are_compatible_parcelables (older newer : AidlStructuredParcelable) : Bool :=
  if newer.fields.length < older.fields.length then false
  else
    (older.fields.zip newer.fields).all
      (fun p => are_compatible_types p.1.varType p.2.varType && (p.1.name = p.2.name))

theorem zip_all_iff_get {α β : Type _} (p : α × β → Bool) (l1 : List α) :
    ∀ (l2 : List β),
    ((l1.zip l2).all p = true) ↔
      (∀ i a b, l1.get? i = some a → l2.get? i = some b → p (a, b) = true) := by
  induction l1 with
  | nil =>
    intro l2
    constructor
    · intro _ i a b ha _
      simp at ha
    · intro _
      simp [List.zip]
  | cons a as ih =>
    intro l2
    cases l2 with
    | nil =>
      constructor
      · intro _ i x y _ hy
        simp at hy
      · intro _
        simp
    | cons b bs =>
      simp only [List.zip_cons_cons, List.all_cons, Bool.and_eq_true]
      constructor
      · rintro ⟨hp, hrest⟩ i x y hx hy
        cases i with
        | zero =>
          obtain rfl : a = x := by simpa using hx
          obtain rfl : b = y := by simpa using hy
          exact hp
        | succ i =>
          exact (ih bs).mp hrest i x y (by simpa using hx) (by simpa using hy)
      · intro h
        exact ⟨h 0 a b rfl rfl,
          (ih bs).mpr (fun i x y hx hy => h (i + 1) x y (by simpa using hx) (by simpa using hy))⟩

/-- C5: the parcelable compatibility check accepts exactly when the new
parcelable has at least as many fields as the old one and, at every index
below the old field count, the new field agrees with the old field on
rendered type, on annotations, and on name; so appending fields is
compatible while removing or renaming a field at an existing index is
not. -/
theorem parcelable_field_compat (older newer : AidlStructuredParcelable) :
    are_compatible_parcelables older newer = true ↔
      (older.fields.length ≤ newer.fields.length ∧
        ∀ i o n, older.fields.get? i = some o → newer.fields.get? i = some n →
          (o.varType.render = n.varType.render ∧
            o.varType.annotations = n.varType.annotations ∧ o.name = n.name)) := by
  unfold are_compatible_parcelables
  by_cases hlen : newer.fields.length < older.fields.length
  · rw [if_pos hlen]
    constructor
    · intro h
      cases h
    · rintro ⟨hle, _⟩
      omega
  · rw [if_neg hlen]
    rw [zip_all_iff_get]
    constructor
    · intro h
      refine ⟨by omega, fun i o n ho hn => ?_⟩
      have hp := h i o n ho hn
      simp only [are_compatible_types, have_compatible_annotations, Bool.and_eq_true,
        decide_eq_true_eq] at hp
      exact ⟨hp.1.1, hp.1.2, hp.2⟩
    · rintro ⟨hle, h⟩ i o n ho hn
      obtain ⟨h1, h2, h3⟩ := h i o n ho hn
      simp only [are_compatible_types, have_compatible_annotations, Bool.and_eq_true,
        decide_eq_true_eq]
      exact ⟨⟨h1, h2⟩, h3⟩

/-- Abstraction of the `TypeNamespace` collaborator used by `check_types`
(aidl.cpp): whether `MaybeAddContainerType` succeeds on a type, whether
`GetReturnType` finds a non-null type, and whether `GetArgType` finds a
non-null type for an argument. -/
structure TypeNamespaceM where
  maybeAddContainerType : AidlTypeSpecifier → Bool
  hasReturnType : AidlTypeSpecifier → Bool
  hasArgType : AidlArgument → Nat → Bool

/-- Diagnostics reported by `AIDL_ERROR` inside `check_types` on an
interface, each tagged with the list position of the offending method. -/
inductive InterfaceCheckError where
  | utf8Conflict
  | onewayNonVoidReturn (methodIdx : Nat) (methodName : String)
  | onewayOutArgument (methodIdx : Nat) (methodName : String)
  | duplicateMethod (methodIdx : Nat) (methodName : String)
  deriving DecidableEq, Repr

/-- Model of the per-argument body of the method loop in `check_types`
(aidl.cpp): container registration, `CheckValid`, `GetArgType` (called with
the never-incremented index 1), and the oneway/out check, which is the only
`AIDL_ERROR` this block reports. Returns the reported errors and whether
`err` was set. -/
def checkArg (types : TypeNamespaceM) (oneway : Bool) (midx : Nat) (mname : String)
    (a : AidlArgument) : List InterfaceCheckError × Bool :=
  let e1 := !(types.maybeAddContainerType a.argType)
  let e2 := !(a.argType.checkValid)
  let e3 := !(types.hasArgType a 1)
  let errs :=
    if oneway && a.isOut then [InterfaceCheckError.onewayOutArgument midx mname] else []
  (errs, e1 || e2 || e3 || (oneway && a.isOut))

/-- Model of the per-method body of `check_types` (aidl.cpp lines 189-258),
excluding the duplicate-name bookkeeping: the method is oneway when its own
flag or the interface-level flag is set; a oneway method with a non-`void`
return type is an error, and each oneway out-argument is an error. -/
def checkMethodTypes (types : TypeNamespaceM) (ifaceOneway : Bool) (idx : Nat)
    (m : AidlMethod) : List InterfaceCheckError × Bool :=
  let oneway := m.oneway || ifaceOneway
  let e1 := !(types.maybeAddContainerType m.methodType)
  let e2 := !(m.methodType.checkValid)
  let e3 := !(types.hasReturnType m.methodType)
  let retErrs :=
    if oneway && (m.methodType.getName != "void") then
      [InterfaceCheckError.onewayNonVoidReturn idx m.name]
    else []
  let argResults := m.arguments.map (checkArg types oneway idx m.name)
  (retErrs ++ (argResults.map Prod.fst).flatten,
    e1 || e2 || e3 || !retErrs.isEmpty || argResults.any Prod.snd)

/-- Model of the method loop of `check_types` with the `method_names` map
threaded as the list of names already seen: per method, the type checks and
oneway checks, then the duplicate-method check. -/
def checkTypesLoop (types : TypeNamespaceM) (ifaceOneway : Bool) :
    List AidlMethod → Nat → List String → List InterfaceCheckError × Bool
  | [], _, _ => ([], false)
  | m :: rest, idx, seen =>
    let mres := checkMethodTypes types ifaceOneway idx m
    let dupErrs :=
      if seen.contains m.name then [InterfaceCheckError.duplicateMethod idx m.name] else []
    let seen' := if seen.contains m.name then seen else m.name :: seen
    let restRes := checkTypesLoop types ifaceOneway rest (idx + 1) seen'
    (mres.1 ++ dupErrs ++ restRes.1, mres.2 || !dupErrs.isEmpty || restRes.2)

/-- Model of `check_types(const AidlInterface*, TypeNamespace*)` (aidl.cpp
lines 189-258): the utf8/utf8InCpp conflict check followed by the method
loop; returns the reported diagnostics and the error flag. -/
def check_types_interface (types : TypeNamespaceM) (c : AidlInterface) :
    List InterfaceCheckError × Bool :=
  let utf8Errs := if c.isUtf8 && c.isUtf8InCpp then [InterfaceCheckError.utf8Conflict] else []
  let res := checkTypesLoop types c.oneway c.methods 0 []
  (utf8Errs ++ res.1, !utf8Errs.isEmpty || res.2)

theorem checkArg_mem_ret (types : TypeNamespaceM) (oneway : Bool) (midx : Nat) (mname : String)
    (a : AidlArgument) (i : Nat) (nm : String) :
    InterfaceCheckError.onewayNonVoidReturn i nm ∉ (checkArg types oneway midx mname a).1 := by
  unfold checkArg
  cases ho : oneway <;> cases hout : a.isOut <;> simp [ho, hout]

theorem checkArg_mem_out (types : TypeNamespaceM) (oneway : Bool) (midx : Nat) (mname : String)
    (a : AidlArgument) (i : Nat) (nm : String) :
    InterfaceCheckError.onewayOutArgument i nm ∈ (checkArg types oneway midx mname a).1 ↔
      (i = midx ∧ nm = mname ∧ oneway = true ∧ a.isOut = true) := by
  unfold checkArg
  cases ho : oneway <;> cases hout : a.isOut <;> simp [ho, hout]

theorem checkMethodTypes_mem_ret (types : TypeNamespaceM) (ow : Bool) (idx : Nat)
    (m : AidlMethod) (i : Nat) (nm : String) :
    InterfaceCheckError.onewayNonVoidReturn i nm ∈ (checkMethodTypes types ow idx m).1 ↔
      (i = idx ∧ nm = m.name ∧ (m.oneway || ow) = true ∧ m.methodType.getName ≠ "void") := by
  unfold checkMethodTypes
  simp only [List.map_map, List.mem_append, List.mem_flatten, List.mem_map, Function.comp]
  constructor
  · rintro (hret | ⟨l, ⟨a, ha, rfl⟩, hmem⟩)
    · by_cases hc : ((m.oneway || ow) && (m.methodType.getName != "void")) = true
      · rw [if_pos hc, List.mem_singleton] at hret
        cases hret
        rw [Bool.and_eq_true, bne_iff_ne] at hc
        exact ⟨rfl, rfl, hc.1, hc.2⟩
      · rw [if_neg hc] at hret
        simp at hret
    · exact absurd hmem (checkArg_mem_ret _ _ _ _ _ _ _)
  · rintro ⟨rfl, rfl, ho, hv⟩
    left
    have hc : ((m.oneway || ow) && (m.methodType.getName != "void")) = true := by
      rw [Bool.and_eq_true, bne_iff_ne]
      exact ⟨ho, hv⟩
    simp [hc]

theorem checkMethodTypes_mem_out (types : TypeNamespaceM) (ow : Bool) (idx : Nat)
    (m : AidlMethod) (i : Nat) (nm : String) :
    InterfaceCheckError.onewayOutArgument i nm ∈ (checkMethodTypes types ow idx m).1 ↔
      (i = idx ∧ nm = m.name ∧ (m.oneway || ow) = true ∧ ∃ a ∈ m.arguments, a.isOut = true) := by
  unfold checkMethodTypes
  simp only [List.map_map, List.mem_append, List.mem_flatten, List.mem_map, Function.comp]
  constructor
  · rintro (hret | ⟨l, ⟨a, ha, rfl⟩, hmem⟩)
    · by_cases hc : ((m.oneway || ow) && (m.methodType.getName != "void")) = true
      · rw [if_pos hc, List.mem_singleton] at hret
        cases hret
      · rw [if_neg hc] at hret
        simp at hret
    · obtain ⟨h1, h2, ho, hout⟩ := (checkArg_mem_out _ _ _ _ _ _ _).mp hmem
      exact ⟨h1, h2, ho, a, ha, hout⟩
  · rintro ⟨rfl, rfl, ho, a, ha, hout⟩
    right
    refine ⟨(checkArg types (m.oneway || ow) _ _ a).1, ⟨a, ha, rfl⟩, ?_⟩
    exact (checkArg_mem_out _ _ _ _ _ _ _).mpr ⟨rfl, rfl, ho, hout⟩

theorem checkTypesLoop_mem_ret (types : TypeNamespaceM) (ow : Bool) (ms : List AidlMethod) :
    ∀ (start : Nat) (seen : List String) (i : Nat) (nm : String),
    InterfaceCheckError.onewayNonVoidReturn i nm ∈ (checkTypesLoop types ow ms start seen).1 ↔
      ∃ j m, ms.get? j = some m ∧ start + j = i ∧ nm = m.name ∧
        (m.oneway || ow) = true ∧ m.methodType.getName ≠ "void" := by
  induction ms with
  | nil =>
    intro start seen i nm
    simp [checkTypesLoop]
  | cons m rest ih =>
    intro start seen i nm
    simp only [checkTypesLoop, List.mem_append, or_assoc]
    constructor
    · rintro (hm | hdup | hrest)
      · obtain ⟨rfl, rfl, ho, hv⟩ := (checkMethodTypes_mem_ret _ _ _ _ _ _).mp hm
        exact ⟨0, m, rfl, by omega, rfl, ho, hv⟩
      · split at hdup <;> simp at hdup
      · obtain ⟨j, m', hg, hsum, hnm, ho, hv⟩ := (ih _ _ _ _).mp hrest
        exact ⟨j + 1, m', by simpa using hg, by omega, hnm, ho, hv⟩
    · rintro ⟨j, m', hg, hsum, hnm, ho, hv⟩
      cases j with
      | zero =>
        rw [List.get?_cons_zero] at hg
        injection hg with hg
        subst hg
        left
        exact (checkMethodTypes_mem_ret _ _ _ _ _ _).mpr ⟨by omega, hnm, ho, hv⟩
      | succ j =>
        right; right
        exact (ih _ _ _ _).mpr ⟨j, m', by simpa using hg, by omega, hnm, ho, hv⟩

theorem checkTypesLoop_mem_out (types : TypeNamespaceM) (ow : Bool) (ms : List AidlMethod) :
    ∀ (start : Nat) (seen : List String) (i : Nat) (nm : String),
    InterfaceCheckError.onewayOutArgument i nm ∈ (checkTypesLoop types ow ms start seen).1 ↔
      ∃ j m, ms.get? j = some m ∧ start + j = i ∧ nm = m.name ∧
        (m.oneway || ow) = true ∧ ∃ a ∈ m.arguments, a.isOut = true := by
  induction ms with
  | nil =>
    intro start seen i nm
    simp [checkTypesLoop]
  | cons m rest ih =>
    intro start seen i nm
    simp only [checkTypesLoop, List.mem_append, or_assoc]
    constructor
    · rintro (hm | hdup | hrest)
      · obtain ⟨rfl, rfl, ho, hout⟩ := (checkMethodTypes_mem_out _ _ _ _ _ _).mp hm
        exact ⟨0, m, rfl, by omega, rfl, ho, hout⟩
      · split at hdup <;> simp at hdup
      · obtain ⟨j, m', hg, hsum, hnm, ho, hout⟩ := (ih _ _ _ _).mp hrest
        exact ⟨j + 1, m', by simpa using hg, by omega, hnm, ho, hout⟩
    · rintro ⟨j, m', hg, hsum, hnm, ho, hout⟩
      cases j with
      | zero =>
        rw [List.get?_cons_zero] at hg
        injection hg with hg
        subst hg
        left
        exact (checkMethodTypes_mem_out _ _ _ _ _ _).mpr ⟨by omega, hnm, ho, hout⟩
      | succ j =>
        right; right
        exact (ih _ _ _ _).mpr ⟨j, m', by simpa using hg, by omega, hnm, ho, hout⟩

theorem check_types_interface_mem_ret (types : TypeNamespaceM) (c : AidlInterface)
    (i : Nat) (nm : String) :
    InterfaceCheckError.onewayNonVoidReturn i nm ∈ (check_types_interface types c).1 ↔
      ∃ m, c.methods.get? i = some m ∧ nm = m.name ∧
        (m.oneway || c.oneway) = true ∧ m.methodType.getName ≠ "void" := by
  unfold check_types_interface
  simp only [List.mem_append]
  constructor
  · rintro (hu | hl)
    · split at hu <;> simp at hu
    · obtain ⟨j, m, hg, hsum, hnm, ho, hv⟩ := (checkTypesLoop_mem_ret _ _ _ _ _ _ _).mp hl
      refine ⟨m, ?_, hnm, ho, hv⟩
      have hji : j = i := by omega
      exact hji ▸ hg
  · rintro ⟨m, hg, hnm, ho, hv⟩
    right
    exact (checkTypesLoop_mem_ret _ _ _ _ _ _ _).mpr ⟨i, m, hg, by omega, hnm, ho, hv⟩

theorem check_types_interface_mem_out (types : TypeNamespaceM) (c : AidlInterface)
    (i : Nat) (nm : String) :
    InterfaceCheckError.onewayOutArgument i nm ∈ (check_types_interface types c).1 ↔
      ∃ m, c.methods.get? i = some m ∧ nm = m.name ∧
        (m.oneway || c.oneway) = true ∧ ∃ a ∈ m.arguments, a.isOut = true := by
  unfold check_types_interface
  simp only [List.mem_append]
  constructor
  · rintro (hu | hl)
    · split at hu <;> simp at hu
    · obtain ⟨j, m, hg, hsum, hnm, ho, hout⟩ := (checkTypesLoop_mem_out _ _ _ _ _ _ _).mp hl
      refine ⟨m, ?_, hnm, ho, hout⟩
      have : j = i := by omega
      exact this ▸ hg
  · rintro ⟨m, hg, hnm, ho, hout⟩
    right
    exact (checkTypesLoop_mem_out _ _ _ _ _ _ _).mpr ⟨i, m, hg, by omega, hnm, ho, hout⟩

/-- C6: a method that is oneway — by its own flag or inherited from the
interface-level flag — is reported with an error when its return type is
not `void`, and with an error when any of its arguments has direction out
or inout; a method that is not oneway is never reported with either of
these two errors, whatever its return type and argument directions. -/
theorem oneway_method_checks (types : TypeNamespaceM) (c : AidlInterface)
    (idx : Nat) (m : AidlMethod) (hm : c.methods.get? idx = some m) :
    ((m.oneway || c.oneway) = true → m.methodType.getName ≠ "void" →
      InterfaceCheckError.onewayNonVoidReturn idx m.name ∈ (check_types_interface types c).1) ∧
    ((m.oneway || c.oneway) = true → ∀ a ∈ m.arguments, a.isOut = true →
      InterfaceCheckError.onewayOutArgument idx m.name ∈ (check_types_interface types c).1) ∧
    ((m.oneway || c.oneway) = false →
      InterfaceCheckError.onewayNonVoidReturn idx m.name ∉ (check_types_interface types c).1 ∧
      InterfaceCheckError.onewayOutArgument idx m.name ∉ (check_types_interface types c).1) := by
  refine ⟨fun ho hv => ?_, fun ho a ha hout => ?_, fun ho => ⟨fun hmem => ?_, fun hmem => ?_⟩⟩
  · exact (check_types_interface_mem_ret types c idx m.name).mpr ⟨m, hm, rfl, ho, hv⟩
  · exact (check_types_interface_mem_out types c idx m.name).mpr ⟨m, hm, rfl, ho, a, ha, hout⟩
  · obtain ⟨m', hg, _, ho', _⟩ := (check_types_interface_mem_ret types c idx m.name).mp hmem
    rw [hm] at hg
    injection hg with hg
    rw [← hg, ho] at ho'
    cases ho'
  · obtain ⟨m', hg, _, ho', _⟩ := (check_types_interface_mem_out types c idx m.name).mp hmem
    rw [hm] at hg
    injection hg with hg
    rw [← hg, ho] at ho'
    cases ho'

/-- Type namespace in which every registry lookup succeeds, for the C6
witness. -/
def tnsAllOk : TypeNamespaceM :=
  ⟨fun _ => true, fun _ => true, fun _ _ => true⟩

/-- Interface for the C6 witness: one oneway method `f` returning `int`
with one out argument. -/
def ifaceOnewayBad : AidlInterface :=
  AidlInterface.mk "IBad" false []
    [AidlMethod.mk true (AidlTypeSpecifier.mk "int" "" false none []) "f"
      [AidlArgument.mk "a" 2 (AidlTypeSpecifier.mk "int" "" false none [])] false 0]

/-- Witness for C6: on `ifaceOnewayBad` both oneway errors are reported
for method 0. -/
theorem oneway_method_checks_witness :
    (ifaceOnewayBad.methods.get? 0
      = some (AidlMethod.mk true (AidlTypeSpecifier.mk "int" "" false none []) "f"
          [AidlArgument.mk "a" 2 (AidlTypeSpecifier.mk "int" "" false none [])] false 0)) ∧
    InterfaceCheckError.onewayNonVoidReturn 0 "f"
      ∈ (check_types_interface tnsAllOk ifaceOnewayBad).1 ∧
    InterfaceCheckError.onewayOutArgument 0 "f"
      ∈ (check_types_interface tnsAllOk ifaceOnewayBad).1 := by
  have h := oneway_method_checks tnsAllOk ifaceOnewayBad 0
    (AidlMethod.mk true (AidlTypeSpecifier.mk "int" "" false none []) "f"
      [AidlArgument.mk "a" 2 (AidlTypeSpecifier.mk "int" "" false none [])] false 0) rfl
  refine ⟨rfl, h.1 rfl (by decide), h.2.1 rfl
    (AidlArgument.mk "a" 2 (AidlTypeSpecifier.mk "int" "" false none []))
    (List.mem_singleton.mpr rfl) (by decide)⟩

end Aidl
